import Mathlib

/-!
Verification of the SkillSync matching/recommendation core (`main.py` and the
skill-count handling of `job_matcher/views.py`).

The Python source is shallowly embedded as Lean functions:

* Python strings are Lean `String`s; the ASCII fragment of `str.lower`,
  `str.strip`, the `in` substring test and `int(...)` parsing is modelled
  character by character (all inputs relevant to the claims are ASCII).
* scikit-learn floats are modelled as real numbers (`ℝ`): `TfidfVectorizer`
  with its default settings (lowercasing, token pattern `\w\w+`, smoothed
  idf `log((1+n)/(1+df)) + 1`, l2 normalisation) followed by
  `cosine_similarity` is expressed exactly over `ℝ`.
* `pandas.sort_values(by=..., ascending=False)` computes an ascending argsort
  of the key column and then reverses it (`nargsort` reverses the indexer for
  `ascending=False`).  The underlying numpy argsort (`kind="quicksort"`) is
  modelled as the stable ascending argsort, which is exact for the regime in
  which numpy introsort degenerates to insertion sort (short arrays); all
  concrete corpora considered here are in that regime.
* external effects (the spaCy model, the Coursera catalogue, the jobs API)
  enter as explicit oracle parameters; Python exceptions become `Except` or
  the empty results the source maps them to.
-/

namespace SkillSync

/-! ### ASCII fragments of Python string primitives -/

/-- ASCII regex `\w` character class: digits, letters, underscore
(models Python `re` word characters on ASCII input). -/
def isWordCharA (c : Char) : Bool :=
  decide ((48 ≤ c.toNat ∧ c.toNat ≤ 57) ∨ (65 ≤ c.toNat ∧ c.toNat ≤ 90) ∨
    (97 ≤ c.toNat ∧ c.toNat ≤ 122) ∨ c.toNat = 95)

/-- ASCII whitespace as recognised by Python `str.strip` / `str.split`:
space, tab, newline, carriage return, vertical tab, form feed. -/
def isWsA (c : Char) : Bool :=
  decide (c.toNat = 32 ∨ c.toNat = 9 ∨ c.toNat = 10 ∨ c.toNat = 13 ∨
    c.toNat = 11 ∨ c.toNat = 12)

/-- ASCII `str.lower` on one character. -/
def charLower (c : Char) : Char :=
  if h : 65 ≤ c.toNat ∧ c.toNat ≤ 90 then
    Char.ofNatAux (c.toNat + 32) (Or.inl (by omega))
  else c

/-- ASCII `str.lower`. -/
def pyLower (s : String) : String := String.mk (s.toList.map charLower)

/-- Drop ASCII whitespace from the front of a character list. -/
def dropWsLeft (l : List Char) : List Char := l.dropWhile isWsA

/-- Python `str.strip()` (ASCII whitespace). -/
def pyStrip (s : String) : String :=
  String.mk ((dropWsLeft ((dropWsLeft s.toList.reverse)).reverse))

/-- Does `needle` occur at the head of `hay`? -/
def headMatch : List Char → List Char → Bool
  | [], _ => true
  | _ :: _, [] => false
  | a :: as, b :: bs => a == b && headMatch as bs

/-- Python substring containment `needle in hay` on character lists. -/
def subMatch (needle : List Char) : List Char → Bool
  | [] => needle.isEmpty
  | c :: t => headMatch needle (c :: t) || subMatch needle t

/-- Scanner for Python `str.split(sep)` with a nonempty separator: `skip`
counts separator characters still to be consumed after a match, `cur`
holds the current field (reversed). -/
def splitSepGo (sep : List Char) : List Char → Nat → List Char → List (List Char)
  | [], _, cur => [cur.reverse]
  | _ :: t, skip + 1, cur => splitSepGo sep t skip cur
  | c :: t, 0, cur =>
      if headMatch sep (c :: t) then
        cur.reverse :: splitSepGo sep t (sep.length - 1) []
      else splitSepGo sep t 0 (c :: cur)

/-- Python `s.split(sep)` for a nonempty separator string. -/
def pySplit (s : String) (sep : String) : List String :=
  (splitSepGo sep.toList s.toList 0 []).map (fun l => String.mk l)

/-- Numeric value of a nonempty all-digit character list, `none` otherwise. -/
def digitsVal (l : List Char) : Option Nat :=
  if l ≠ [] ∧ l.all (fun c => decide (48 ≤ c.toNat ∧ c.toNat ≤ 57)) then
    some (l.foldl (fun a c => a * 10 + (c.toNat - 48)) 0)
  else none

/-- Python `int(s)` for a decimal string: strip whitespace, optional sign,
then digits; `none` models the `ValueError` branch. -/
def pyParseInt (s : String) : Option Int :=
  match (pyStrip s).toList with
  | '-' :: rest => (digitsVal rest).map (fun n => -(n : Int))
  | '+' :: rest => (digitsVal rest).map (fun n => (n : Int))
  | rest => (digitsVal rest).map (fun n => (n : Int))

/-- Python slice `l[:k]` for an `int` bound `k`: a negative bound drops the
last `|k|` elements, a nonnegative bound keeps the first `k`. -/
def pySliceTo (l : List α) (k : Int) : List α :=
  if k < 0 then l.take (l.length - k.natAbs) else l.take k.toNat

/-! ### Data model -/

/-- One corpus row; only the columns the core reads are kept
(`Skills` plus identifying fields). -/
structure JobListing where
  id : Nat
  title : String
  skills : String
deriving DecidableEq, Inhabited

/-- `COMMON_TECH_SKILLS` from `main.py`: the fallback vocabulary scanned by
`extract_skills` when the spaCy model is unavailable. -/
def COMMON_TECH_SKILLS : List String := [
  "python", "java", "javascript", "html", "css", "react", "angular", "vue",
  "node.js", "express", "django", "flask", "spring", "hibernate", "sql",
  "mysql", "postgresql", "mongodb", "nosql", "aws", "azure", "gcp",
  "docker", "kubernetes", "jenkins", "git", "github", "gitlab", "ci/cd",
  "agile", "scrum", "jira", "confluence", "rest api", "graphql", "microservices",
  "machine learning", "artificial intelligence", "data science", "big data",
  "hadoop", "spark", "tensorflow", "pytorch", "keras", "nlp", "computer vision",
  "devops", "sre", "cloud computing", "serverless", "linux", "unix", "bash",
  "powershell", "c#", "c++", "ruby", "php", "swift", "kotlin", "go", "rust",
  "typescript", "jquery", "bootstrap", "sass", "less", "webpack", "babel",
  "redux", "vuex", "next.js", "nuxt.js", "gatsby", "rest",
  "oauth", "jwt", "authentication", "authorization", "security", "encryption",
  "testing", "unit testing", "integration testing", "e2e testing", "jest",
  "mocha", "chai", "selenium", "cypress", "puppeteer", "responsive design",
  "mobile development", "ios", "android", "react native", "flutter", "xamarin"]

/-! ### Skill extractor (`extract_skills`) -/

/-- The hard-coded default returned when neither extraction path finds
anything. -/
def defaultSkills : List String := ["python", "javascript", "html", "css", "sql"]

/-- Vocabulary entries whose text occurs as a substring of the lowercased
input (the fallback scan of `extract_skills`). -/
def vocabScanHits (text : String) : List String :=
  COMMON_TECH_SKILLS.filter (fun s => subMatch s.toList (pyLower text).toList)

/-- Fallback branch of `extract_skills`: scan the fixed vocabulary, and
substitute the default list when nothing matches. -/
def fallbackSkills (text : String) : List String :=
  let found := vocabScanHits text
  if found = [] then defaultSkills else found

/-- The skill list built by `extract_skills` before it is comma-joined.
`nlpModel` is the optional spaCy pipeline (`nlp` in `main.py`): it returns
the entity texts for a document or an error (the `try`/`except` around the
model call); `list(set(...))` is modelled as `dedup`. -/
def extract_skills_list (nlpModel : Option (String → Except String (List String)))
    (text : String) : List String :=
  match nlpModel with
  | some f =>
      match f text with
      | .ok ents =>
          let skills := (ents.map pyLower).dedup
          if skills = [] then fallbackSkills text else skills
      | .error _ => fallbackSkills text
  | none => fallbackSkills text

/-- `extract_skills`: the comma-and-space-joined wire form. -/
def extract_skills (nlpModel : Option (String → Except String (List String)))
    (text : String) : String :=
  String.intercalate ", " (extract_skills_list nlpModel text)

/-- A token contains no ASCII uppercase letter. -/
def noUpper (s : String) : Prop :=
  s.toList.all (fun c => !(decide (65 ≤ c.toNat ∧ c.toNat ≤ 90))) = true

/-- An optional edge character that is not whitespace. -/
def edgeOk : Option Char → Bool
  | none => true
  | some c => !(isWsA c)

/-- A token has no leading or trailing ASCII whitespace. -/
def cleanEdges (s : String) : Prop :=
  edgeOk s.toList.head? = true ∧ edgeOk s.toList.getLast? = true

/-! ### TF-IDF relevance ranker (`recommended_jobs`)

`TfidfVectorizer()` with default settings lowercases each document and
tokenizes it with the pattern `\w\w+` (maximal word-character runs of length
at least two); term weights are `count * (log((1+n)/(1+df)) + 1)` and each
document vector is l2-normalised, so the cosine similarity of two documents
is their raw weighted dot product divided by the product of norms (`0` when
a vector is zero, as `cosine_similarity` maps zero norms to zero
similarity; in `ℝ` division by zero yields `0`, which agrees). -/

/-- Maximal word-character runs of a character list (`cur` is the current
run, reversed). -/
def wordRunsAux (cur : List Char) : List Char → List (List Char)
  | [] => if cur = [] then [] else [cur.reverse]
  | c :: cs =>
      if isWordCharA c then wordRunsAux (c :: cur) cs
      else if cur = [] then wordRunsAux [] cs
      else cur.reverse :: wordRunsAux [] cs

/-- The scikit-learn default analyzer: lowercase, then keep the maximal
word-character runs of length at least two. -/
def tokenize (s : String) : List String :=
  ((wordRunsAux [] (pyLower s).toList).filter (fun r => 2 ≤ r.length)).map
    (fun r => String.mk r)

/-- Term frequency: occurrences of token `t` in document `d`. -/
def tf (d : List String) (t : String) : Nat := d.count t

/-- Document frequency of token `t` over the fitted corpus. -/
def df (docs : List (List String)) (t : String) : Nat :=
  (docs.filter (fun d => decide (t ∈ d))).length

/-- Smoothed inverse document frequency, scikit-learn default
(`smooth_idf=True`). -/
noncomputable def idf (docs : List (List String)) (t : String) : ℝ :=
  Real.log ((1 + (docs.length : ℝ)) / (1 + (df docs t : ℝ))) + 1

/-- One TF-IDF coordinate of document `d`. -/
noncomputable def tfidfWeight (docs : List (List String)) (d : List String)
    (t : String) : ℝ :=
  (tf d t : ℝ) * idf docs t

/-- The fitted vocabulary (each distinct token once; order is irrelevant to
the dot products below). -/
def vocabOf (docs : List (List String)) : List String := docs.flatten.dedup

/-- Dot product of the TF-IDF vectors of documents `d` and `e`. -/
noncomputable def dotTfidf (docs : List (List String)) (d e : List String) : ℝ :=
  ((vocabOf docs).map (fun t => tfidfWeight docs d t * tfidfWeight docs e t)).sum

/-- Cosine similarity of the TF-IDF vectors of `d` and `e`. -/
noncomputable def cosSim (docs : List (List String)) (d e : List String) : ℝ :=
  dotTfidf docs d e / (Real.sqrt (dotTfidf docs d d) * Real.sqrt (dotTfidf docs e e))

/-- The similarity-score column attached by `recommended_jobs`: the user
document is row 0 of the fitted matrix and each listing is compared
against it. -/
noncomputable def similarityScores (user_skills : String)
    (job_listings : List JobListing) : List ℝ :=
  let docs := (user_skills :: job_listings.map (fun l => l.skills)).map tokenize
  job_listings.map (fun l => cosSim docs (tokenize user_skills) (tokenize l.skills))

/-- The key order used by `pandas.sort_values`: ascending by key, ties by
original position (the stable ascending argsort). -/
def pandasKeyLE (keys : List ℝ) (i j : Nat) : Prop :=
  keys.getD i 0 < keys.getD j 0 ∨ (keys.getD i 0 = keys.getD j 0 ∧ i ≤ j)

noncomputable instance (keys : List ℝ) : DecidableRel (pandasKeyLE keys) :=
  fun _ _ => Classical.dec _

instance (keys : List ℝ) : IsTotal Nat (pandasKeyLE keys) where
  total a b := by
    rcases lt_trichotomy (keys.getD a 0) (keys.getD b 0) with h | h | h
    · exact Or.inl (Or.inl h)
    · rcases Nat.le_total a b with hab | hba
      · exact Or.inl (Or.inr ⟨h, hab⟩)
      · exact Or.inr (Or.inr ⟨h.symm, hba⟩)
    · exact Or.inr (Or.inl h)

instance (keys : List ℝ) : IsTrans Nat (pandasKeyLE keys) where
  trans a b c hab hbc := by
    rcases hab with h1 | ⟨h1, h1'⟩ <;> rcases hbc with h2 | ⟨h2, h2'⟩
    · exact Or.inl (h1.trans h2)
    · exact Or.inl (h2 ▸ h1)
    · exact Or.inl (h1 ▸ h2)
    · exact Or.inr ⟨h1.trans h2, h1'.trans h2'⟩

/-- Stable ascending argsort of the key column (numpy argsort in the regime
where introsort is the stable insertion sort). -/
noncomputable def argsortAsc (keys : List ℝ) : List Nat :=
  List.insertionSort (pandasKeyLE keys) (List.range keys.length)

/-- `pandas.nargsort` for `ascending=False`: the ascending indexer is
computed and then reversed. -/
noncomputable def argsortDescPandas (keys : List ℝ) : List Nat :=
  (argsortAsc keys).reverse

/-- The reordered frame produced by
`job_listings.sort_values(by="Similarity Score", ascending=False)`:
each output row keeps its original index label, its columns, and the
attached score. -/
noncomputable def recommended_jobs_rows (user_skills : String)
    (job_listings : List JobListing) : List (Nat × JobListing × ℝ) :=
  let scores := similarityScores user_skills job_listings
  (argsortDescPandas scores).map
    (fun i => (i, job_listings.getD i default, scores.getD i 0))

/-- `recommended_jobs`.  `fit_transform` raises `ValueError` on an empty
vocabulary; `cosine_similarity(X[0:1], X[1:])` raises `ValueError` when the
listing matrix has zero rows (`check_array` requires at least one sample).
Both raises are modelled as `Except.error` with the scikit-learn message
prefix; the checks happen in source order. -/
noncomputable def recommended_jobs (user_skills : String)
    (job_listings : List JobListing) : Except String (List (Nat × JobListing × ℝ)) :=
  let all_skills := user_skills :: job_listings.map (fun l => l.skills)
  if (all_skills.map tokenize).flatten = [] then
    .error "empty vocabulary"
  else if job_listings = [] then
    .error "Found array with 0 sample(s) while a minimum of 1 is required"
  else
    .ok (recommended_jobs_rows user_skills job_listings)

/-! ### Skill-gap recommender (`recommended_skills`) -/

/-- Python `sorted(l, key=lambda s: counts[s], reverse=True)`: stable
descending sort by count, modelled as the unique order that is descending
by count with ties by original position. -/
def pySortByCountDesc (all : List String) (l : List String) : List String :=
  (List.insertionSort
    (fun p q : Nat × String =>
      all.count q.2 < all.count p.2 ∨ (all.count p.2 = all.count q.2 ∧ p.1 ≤ q.1))
    l.enum).map (fun p => p.2)

/-- The sorted missing-skill list of `recommended_skills` before
truncation: corpus tokens absent from the user set, most frequent first.
Python iterates `set(skill_counts.keys()) - set(user_skills)` in
implementation-defined hash order; the model fixes the deterministic
`dedup` order (the claims under verification do not depend on the tie
order). -/
def sortedMissingSkills (user_skills : String) (job_listings : List JobListing) :
    List String :=
  let user := pySplit user_skills ", "
  let all_job_skills := job_listings.flatMap (fun l => pySplit l.skills ", ")
  let missing := all_job_skills.dedup.filter (fun t => decide (t ∉ user))
  pySortByCountDesc all_job_skills missing

/-- `recommended_skills`: `None` means the default of 10; any other value is
applied as a Python slice bound. -/
def recommended_skills (user_skills : String) (job_listings : List JobListing)
    (skill_number : Option Int) : List String :=
  let sorted := sortedMissingSkills user_skills job_listings
  match skill_number with
  | none => sorted.take 10
  | some k => pySliceTo sorted k

/-- A JSON-ish request value for the `skill_count` field of
`RecommendedSkillsView.post` (null / integer / string). -/
inductive ReqVal where
  | vNull : ReqVal
  | vInt : Int → ReqVal
  | vStr : String → ReqVal
deriving DecidableEq

/-- The `skill_count` normalisation in `RecommendedSkillsView.post`:
`if skill_count and not isinstance(skill_count, int)` coerces with
`int(...)`, replacing a failed parse by `None`.  A falsy value (null, `0`,
the empty string) skips the coercion entirely, and an `int` is passed
through unchanged. -/
def viewSkillCount : ReqVal → ReqVal
  | .vNull => .vNull
  | .vInt n => .vInt n
  | .vStr s =>
      if s = "" then .vStr s
      else
        match pyParseInt s with
        | some n => .vInt n
        | none => .vNull

/-- The view then calls `recommended_skills(user_skills, job_listings,
skill_count)`; a string that survived normalisation reaches the Python
slice and raises `TypeError`. -/
def viewRecommendedSkills (user_skills : String) (job_listings : List JobListing)
    (v : ReqVal) : Except String (List String) :=
  match viewSkillCount v with
  | .vNull => .ok (recommended_skills user_skills job_listings none)
  | .vInt n => .ok (recommended_skills user_skills job_listings (some n))
  | .vStr _ => .error "TypeError: slice indices must be integers"

/-! ### Certification finder (`get_certifications`) -/

/-- One certification entry `[title, url, skill]`; the single-skill path
produces no skill tag (`none`). -/
structure Course where
  title : String
  url : String
  skill : Option String
deriving DecidableEq

/-- `search_coursera_for_skill`: guard against blank skills, then query the
catalogue.  `fetch` stands for the HTTP request plus markup parsing and
returns the scraped `[title, url]` pairs or an error; both `except`
branches of the source map a failure to `[]`. -/
def search_coursera_for_skill (fetch : String → Except String (List (String × String)))
    (skill : String) : List (String × String) :=
  if pyStrip skill = "" then []
  else
    match fetch skill with
    | .ok courses => courses
    | .error _ => []

/-- The combined pre-deduplication course list of the multi-skill path:
for each skill, take at most 3 catalogue results and append them (tagged
with the skill) to the accumulator, exactly as the nested Python loops do.
The scraped entries are always `[title, url]` pairs, so the
`len(course) == 2` branch of the source always fires. -/
def getCertCombined (search : String → List (String × String))
    (skills : List String) : List Course :=
  skills.foldl
    (fun courses skill =>
      ((search skill).take 3).foldl
        (fun cs c => cs ++ [⟨c.1, c.2, some skill⟩]) courses)
    []

/-- The duplicate-removal walk of `get_certifications`: keep an entry only
if its title is not in `seen_titles` yet. -/
def dedupByTitleAux (seen : List String) : List Course → List Course
  | [] => []
  | c :: cs =>
      if c.title ∈ seen then dedupByTitleAux seen cs
      else c :: dedupByTitleAux (c.title :: seen) cs

/-- `get_certifications`: comma-separated specializations are split,
stripped, filtered, capped at 10 skills, searched per skill (3 results
each), and globally deduplicated by title; a single skill is searched
directly and capped at 3. -/
def get_certifications (fetch : String → Except String (List (String × String)))
    (specialization : String) : List Course :=
  if specialization.toList.contains ',' then
    let skills := (((pySplit specialization ",").map pyStrip).filter
      (fun s => s ≠ "")).take 10
    let courses := getCertCombined (search_coursera_for_skill fetch) skills
    dedupByTitleAux [] courses
  else
    ((search_coursera_for_skill fetch specialization).take 3).map
      (fun c => ⟨c.1, c.2, none⟩)

/-- Occurrences of title `t` in a course list. -/
def countByTitle (l : List Course) (t : String) : Nat :=
  (l.filter (fun c => c.title == t)).length

/-! ### Paginated job fetcher (`fetch_paginated_jobs`) -/

/-- Outcome of one API request: a transport/HTTP failure (the
`RequestException` branch), or a JSON body with its `jobs` array and
optional `nextPage` cursor. -/
inductive PageResult (α : Type) where
  | fail : PageResult α
  | ok : List α → Option String → PageResult α

/-- What `fetch_paginated_jobs` leaves behind: the accumulated jobs, the
final state of the caller-supplied `params` dict (the source mutates it in
place), and the number of requests issued. -/
structure FetchOut (α : Type) where
  jobs : List α
  finalParams : List (String × String)
  requests : Nat

/-- Python dict assignment `params[k] = v` on an association list. -/
def setParam : List (String × String) → String → String → List (String × String)
  | [], k, v => [(k, v)]
  | (k', v') :: rest, k, v =>
      if k' = k then (k, v) :: rest else (k', v') :: setParam rest k v

/-- Association-list lookup mirroring `params.get(k)`. -/
def lookupParam : List (String × String) → String → Option String
  | [], _ => none
  | (k', v) :: rest, k => if k' = k then some v else lookupParam rest k

/-- The page loop of `fetch_paginated_jobs`.  `responses n` is the outcome
of the `n`-th request issued; `pagesLeft` is the remaining page budget,
`reqs` counts requests already issued, `acc` is `all_jobs` and `nextPage`
the cursor variable (`""` initially, `None` becomes `""` via falsiness). -/
def fetchAux (responses : Nat → PageResult α) :
    Nat → Nat → List α → List (String × String) → String → FetchOut α
  | 0, reqs, acc, params, _ => ⟨acc, params, reqs⟩
  | pagesLeft + 1, reqs, acc, params, nextPage =>
      let params' := if nextPage ≠ "" then setParam params "nextPage" nextPage
                     else params
      match responses reqs with
      | .fail => ⟨acc, params', reqs + 1⟩
      | .ok jobs np =>
          if jobs.isEmpty then ⟨acc, params', reqs + 1⟩
          else
            let npStr := match np with | none => "" | some s => s
            if npStr = "" then ⟨acc ++ jobs, params', reqs + 1⟩
            else fetchAux responses pagesLeft (reqs + 1) (acc ++ jobs) params' npStr

/-- `fetch_paginated_jobs(api_url, params, headers, max_pages)`; the URL and
headers only select the oracle, so they are folded into `responses`. -/
def fetch_paginated_jobs (responses : Nat → PageResult α)
    (params : List (String × String)) (max_pages : Nat) : FetchOut α :=
  fetchAux responses max_pages 0 [] params ""

/-! ## Helper lemmas -/

theorem lookupParam_setParam (ps : List (String × String)) (k v : String) :
    lookupParam (setParam ps k v) k = some v := by
  induction ps with
  | nil => simp [setParam, lookupParam]
  | cons p rest ih =>
      by_cases h : p.1 = k <;> simp [setParam, lookupParam, h, ih]

/-! ## Claim C9: minimum length of the fallback vocabulary entries -/

/-- C9 counterexample: the claim says every entry of `COMMON_TECH_SKILLS`
has length at least 3, but the shipped vocabulary contains the
2-character entry `"go"` (and also `"c#"`). -/
theorem short_vocab_entry_counterexample :
    "go" ∈ COMMON_TECH_SKILLS ∧ "go".length = 2 ∧ ¬ (3 ≤ "go".length) := by
  decide

/-- C9 amended: every entry of the shipped fallback vocabulary has length
at least 2 (there are no 1-character entries, but `"go"` and `"c#"` have
exactly 2 characters). -/
theorem vocab_min_length_two : ∀ s ∈ COMMON_TECH_SKILLS, 2 ≤ s.length := by
  decide

theorem vocab_min_length_two_witness : 2 ≤ "python".length :=
  vocab_min_length_two "python" (by decide)

/-! ## Claim C6: terminal behaviour of the paginated fetcher -/

/-- C6: `fetch_paginated_jobs` returns the accumulated partial list under
each terminal condition.  First part: for a response sequence
`{jobs:[x], nextPage:t}` followed by `{jobs:[], nextPage:np1}` it returns
exactly the first page of jobs and issues exactly 2 requests, regardless
of a larger `max_pages`.  Second part: a request failure returns the jobs
accumulated so far immediately, with no retry (the loop body maps a
failing response at any state to the current accumulator and one more
issued request). -/
theorem fetch_paginated_jobs_terminal {α : Type} (responses : Nat → PageResult α)
    (params : List (String × String)) (max_pages : Nat) :
    (∀ (x : α) (t : String) (np1 : Option String),
        responses 0 = .ok [x] (some t) → t ≠ "" → responses 1 = .ok [] np1 →
        2 ≤ max_pages →
        (fetch_paginated_jobs responses params max_pages).jobs = [x] ∧
        (fetch_paginated_jobs responses params max_pages).requests = 2) ∧
    (∀ (pagesLeft reqs : Nat) (acc : List α) (ps : List (String × String))
        (np : String),
        responses reqs = .fail →
        fetchAux responses (pagesLeft + 1) reqs acc ps np =
          ⟨acc, if np ≠ "" then setParam ps "nextPage" np else ps, reqs + 1⟩) := by
  constructor
  · intro x t np1 h0 ht h1 hmp
    obtain ⟨k, rfl⟩ : ∃ k, max_pages = k + 2 := ⟨max_pages - 2, by omega⟩
    rw [fetch_paginated_jobs]
    rw [show k + 2 = (k + 1) + 1 from rfl]
    rw [fetchAux, h0]
    simp only [List.isEmpty_cons, if_neg, ne_eq, not_true_eq_false, ite_false,
      Bool.false_eq_true]
    rw [if_neg ht, fetchAux, h1]
    simp [ht]
  · intro pagesLeft reqs acc ps np hfail
    rw [fetchAux, hfail]

/-- C6 witness: the theorem applied to a concrete two-page mock. -/
theorem fetch_paginated_jobs_terminal_witness :
    (fetch_paginated_jobs
      (fun n => if n = 0 then .ok ["job1"] (some "t1") else .ok [] none)
      [("query", "python")] 5).jobs = ["job1"] ∧
    (fetch_paginated_jobs
      (fun n => if n = 0 then .ok ["job1"] (some "t1") else .ok [] none)
      [("query", "python")] 5).requests = 2 :=
  (fetch_paginated_jobs_terminal
    (fun n => if n = 0 then .ok ["job1"] (some "t1") else .ok [] none)
    [("query", "python")] 5).1
    "job1" "t1" none rfl (by decide) rfl (by decide)

/-! ## Claim C10: in-place mutation of the caller-supplied params dict -/

/-- C10: when the first response carries a non-empty cursor and the loop
proceeds to the next page, the cursor is written into the caller-supplied
`params` dict under `"nextPage"`, and the mutation persists after the
call: the final params are `setParam params "nextPage" t`, they resolve
the key to the cursor, and they differ from a `params` that had no such
key. -/
theorem params_mutation {α : Type} (responses : Nat → PageResult α)
    (params : List (String × String)) (max_pages : Nat) (jobs1 : List α)
    (t : String) (h0 : responses 0 = .ok jobs1 (some t)) (hj : jobs1 ≠ [])
    (ht : t ≠ "") (h1 : responses 1 = .fail) (hmp : 2 ≤ max_pages) :
    (fetch_paginated_jobs responses params max_pages).finalParams =
      setParam params "nextPage" t ∧
    lookupParam (fetch_paginated_jobs responses params max_pages).finalParams
      "nextPage" = some t ∧
    (lookupParam params "nextPage" = none →
      (fetch_paginated_jobs responses params max_pages).finalParams ≠ params) := by
  have hmain : (fetch_paginated_jobs responses params max_pages).finalParams =
      setParam params "nextPage" t := by
    obtain ⟨k, rfl⟩ : ∃ k, max_pages = k + 2 := ⟨max_pages - 2, by omega⟩
    rw [fetch_paginated_jobs]
    rw [show k + 2 = (k + 1) + 1 from rfl]
    rw [fetchAux, h0]
    simp only [ne_eq, not_true_eq_false, ite_false]
    rw [if_neg (by simpa [List.isEmpty_iff] using hj), if_neg ht, fetchAux, h1]
    simp [ht]
  refine ⟨hmain, ?_, ?_⟩
  · rw [hmain, lookupParam_setParam]
  · intro hnone heq
    rw [hmain] at heq
    rw [← heq, lookupParam_setParam] at hnone
    exact Option.noConfusion hnone

/-- C10 witness: the theorem applied to a concrete failing-second-page
mock starting from a params dict without a `"nextPage"` key. -/
theorem params_mutation_witness :
    (fetch_paginated_jobs
      (fun n => if n = 0 then .ok ["job1"] (some "t1") else .fail)
      [("query", "python")] 2).finalParams =
        setParam [("query", "python")] "nextPage" "t1" ∧
    lookupParam
      (fetch_paginated_jobs
        (fun n => if n = 0 then .ok ["job1"] (some "t1") else .fail)
        [("query", "python")] 2).finalParams "nextPage" = some "t1" :=
  ⟨(params_mutation
      (fun n => if n = 0 then .ok ["job1"] (some "t1") else .fail)
      [("query", "python")] 2 ["job1"] "t1" rfl (by decide) (by decide) rfl
      (by decide)).1,
   (params_mutation
      (fun n => if n = 0 then .ok ["job1"] (some "t1") else .fail)
      [("query", "python")] 2 ["job1"] "t1" rfl (by decide) (by decide) rfl
      (by decide)).2.1⟩

/-! ## Claim C8: empty corpus -/

/-- C8 counterexample: on an empty corpus `recommended_jobs` does not
return the corpus unchanged; it raises (scikit-learn `check_array`
rejects the 0-sample comparison matrix inside `cosine_similarity`). -/
theorem empty_corpus_counterexample :
    recommended_jobs "python" ([] : List JobListing) =
      .error "Found array with 0 sample(s) while a minimum of 1 is required" ∧
    recommended_jobs "python" ([] : List JobListing) ≠ .ok [] := by
  have h : recommended_jobs "python" ([] : List JobListing) =
      .error "Found array with 0 sample(s) while a minimum of 1 is required" := rfl
  exact ⟨h, by rw [h]; simp⟩

/-- C8 amended: on an empty corpus `recommended_jobs` always raises a
`ValueError` (from the vectorizer when the user string has no tokens,
otherwise from `cosine_similarity`), rather than returning the corpus
unchanged. -/
theorem empty_corpus_errors (u : String) :
    ∃ msg, recommended_jobs u ([] : List JobListing) = .error msg := by
  rw [recommended_jobs]
  split_ifs with h1 h2
  · exact ⟨_, rfl⟩
  · exact ⟨_, rfl⟩
  · exact absurd rfl h2

/-! ## Claim C3: truncation and limit handling of `recommended_skills` -/

/-- C3 counterexample: with a limit of 0 — not a positive integer —
`recommended_skills` returns the empty list (`l[:0]`), not the top 10
missing skills (which here would be `["sql"]`). -/
theorem limit_zero_counterexample :
    recommended_skills "python" [⟨1, "L", "python, sql"⟩] (some 0) = [] ∧
    recommended_skills "python" [⟨1, "L", "python, sql"⟩] none = ["sql"] ∧
    ([] : List String) ≠ ["sql"] := by
  refine ⟨by decide, by decide, by decide⟩

/-- C3 amended: `recommended_skills` truncates to the limit; a `None`
limit defaults to the top 10; a limit of 0 yields the empty list and a
negative limit drops the last `|limit|` entries (Python slice semantics)
instead of defaulting to 10; at the API boundary a truthy non-integer
value is coerced with `int(...)` or replaced by the default without
raising, while the falsy empty string bypasses the coercion and raises a
`TypeError` downstream. -/
theorem recommended_skills_truncation (u : String) (ls : List JobListing) :
    recommended_skills u ls none = (sortedMissingSkills u ls).take 10 ∧
    (∀ k : Int, 0 ≤ k →
      recommended_skills u ls (some k) = (sortedMissingSkills u ls).take k.toNat) ∧
    recommended_skills u ls (some 0) = [] ∧
    (∀ k : Int, k < 0 →
      (recommended_skills u ls (some k)).length =
        (sortedMissingSkills u ls).length - k.natAbs) ∧
    (∀ s : String, s ≠ "" →
      viewRecommendedSkills u ls (.vStr s) =
          .ok (recommended_skills u ls (some ((pyParseInt s).getD 0))) ∨
      viewRecommendedSkills u ls (.vStr s) = .ok (recommended_skills u ls none)) ∧
    viewRecommendedSkills u ls (.vStr "") =
      .error "TypeError: slice indices must be integers" := by
  refine ⟨rfl, ?_, ?_, ?_, ?_, rfl⟩
  · intro k hk
    simp [recommended_skills, pySliceTo, not_lt.mpr hk]
  · simp [recommended_skills, pySliceTo]
  · intro k hk
    simp only [recommended_skills, pySliceTo, if_pos hk, List.length_take]
    omega
  · intro s hs
    rw [viewRecommendedSkills, viewSkillCount]
    rw [if_neg hs]
    cases h : pyParseInt s with
    | none => exact Or.inr rfl
    | some n => exact Or.inl (by simp [h])

/-- C3 witness: the amended theorem applied at a concrete corpus, limit 2,
limit -1, and the coercible boundary string "2". -/
theorem recommended_skills_truncation_witness :
    recommended_skills "python" [⟨1, "L", "python, sql"⟩] (some 2) =
      (sortedMissingSkills "python" [⟨1, "L", "python, sql"⟩]).take (Int.toNat 2) ∧
    (recommended_skills "python" [⟨1, "L", "python, sql"⟩] (some (-1))).length =
      (sortedMissingSkills "python" [⟨1, "L", "python, sql"⟩]).length -
        Int.natAbs (-1) ∧
    (viewRecommendedSkills "python" [⟨1, "L", "python, sql"⟩] (.vStr "2") =
        .ok (recommended_skills "python" [⟨1, "L", "python, sql"⟩]
          (some ((pyParseInt "2").getD 0))) ∨
      viewRecommendedSkills "python" [⟨1, "L", "python, sql"⟩] (.vStr "2") =
        .ok (recommended_skills "python" [⟨1, "L", "python, sql"⟩] none)) :=
  ⟨(recommended_skills_truncation "python" [⟨1, "L", "python, sql"⟩]).2.1 2
      (by decide),
   (recommended_skills_truncation "python" [⟨1, "L", "python, sql"⟩]).2.2.2.1 (-1)
      (by decide),
   (recommended_skills_truncation "python" [⟨1, "L", "python, sql"⟩]).2.2.2.2.1 "2"
      (by decide)⟩

/-! ## Claims C4 and C5: certification finder -/

theorem dedupByTitleAux_count_of_seen (t : String) :
    ∀ (l : List Course) (seen : List String), t ∈ seen →
      countByTitle (dedupByTitleAux seen l) t = 0 := by
  intro l
  induction l with
  | nil => intro seen _; rfl
  | cons c cs ih =>
      intro seen ht
      by_cases h : c.title ∈ seen
      · rw [dedupByTitleAux, if_pos h]; exact ih seen ht
      · rw [dedupByTitleAux, if_neg h]
        have hne : (c.title == t) = false :=
          beq_eq_false_iff_ne.mpr (fun he => h (he ▸ ht))
        simp only [countByTitle, List.filter_cons, hne]
        exact ih (c.title :: seen) (List.mem_cons_of_mem _ ht)

theorem dedupByTitleAux_count_le_one :
    ∀ (l : List Course) (seen : List String) (t : String),
      countByTitle (dedupByTitleAux seen l) t ≤ 1 := by
  intro l
  induction l with
  | nil => intro seen t; exact Nat.zero_le 1
  | cons c cs ih =>
      intro seen t
      by_cases h : c.title ∈ seen
      · rw [dedupByTitleAux, if_pos h]; exact ih seen t
      · rw [dedupByTitleAux, if_neg h]
        by_cases he : c.title = t
        · simp only [countByTitle, List.filter_cons, beq_iff_eq, if_pos he,
            List.length_cons]
          have h0 : countByTitle (dedupByTitleAux (c.title :: seen) cs) t = 0 :=
            dedupByTitleAux_count_of_seen t cs (c.title :: seen)
              (he ▸ List.mem_cons_self _ _)
          simp only [countByTitle] at h0
          omega
        · have hne : (c.title == t) = false := beq_eq_false_iff_ne.mpr he
          simp only [countByTitle, List.filter_cons, hne]
          exact ih (c.title :: seen) t

theorem dedupByTitleAux_find? :
    ∀ (l : List Course) (seen : List String) (t : String), t ∉ seen →
      (dedupByTitleAux seen l).find? (fun c => c.title == t) =
        l.find? (fun c => c.title == t) := by
  intro l
  induction l with
  | nil => intro seen t _; rfl
  | cons c cs ih =>
      intro seen t ht
      by_cases h : c.title ∈ seen
      · rw [dedupByTitleAux, if_pos h]
        have hne : (c.title == t) = false :=
          beq_eq_false_iff_ne.mpr (fun he => ht (he ▸ h))
        rw [List.find?_cons_of_neg _ (by simp [hne]), ih seen t ht]
      · rw [dedupByTitleAux, if_neg h]
        by_cases he : c.title = t
        · rw [List.find?_cons_of_pos _ (by simp [he]),
            List.find?_cons_of_pos _ (by simp [he])]
        · have hne : (c.title == t) = false := beq_eq_false_iff_ne.mpr he
          rw [List.find?_cons_of_neg _ (by simp [hne]),
            List.find?_cons_of_neg _ (by simp [hne])]
          exact ih (c.title :: seen) t (by
            intro hmem
            rcases List.mem_cons.mp hmem with h1 | h1
            · exact he h1.symm
            · exact ht h1)

theorem foldl_push_eq_map (skill : String) :
    ∀ (l : List (String × String)) (acc : List Course),
      l.foldl (fun cs c => cs ++ [⟨c.1, c.2, some skill⟩]) acc =
        acc ++ l.map (fun c => ⟨c.1, c.2, some skill⟩) := by
  intro l
  induction l with
  | nil => intro acc; simp
  | cons c cs ih => intro acc; simp [List.foldl_cons, ih]

theorem getCertCombined_eq_flatMap (search : String → List (String × String)) :
    ∀ (skills : List String) (acc : List Course),
      skills.foldl
        (fun courses skill =>
          ((search skill).take 3).foldl
            (fun cs c => cs ++ [⟨c.1, c.2, some skill⟩]) courses) acc =
        acc ++ skills.flatMap
          (fun s => ((search s).take 3).map (fun c => ⟨c.1, c.2, some s⟩)) := by
  intro skills
  induction skills with
  | nil => intro acc; simp
  | cons s ss ih =>
      intro acc
      rw [List.foldl_cons, ih, foldl_push_eq_map, List.flatMap_cons,
        List.append_assoc]

theorem getCertCombined_eq (search : String → List (String × String))
    (skills : List String) :
    getCertCombined search skills =
      skills.flatMap
        (fun s => ((search s).take 3).map (fun c => ⟨c.1, c.2, some s⟩)) := by
  unfold getCertCombined
  rw [getCertCombined_eq_flatMap, List.nil_append]

/-- C4: on the multi-skill path every title occurs at most once in the
output of `get_certifications`, and the entry kept for a title is exactly
the first entry with that title in the combined pre-deduplication list —
so it retains the URL and skill tag of its first occurrence. -/
theorem certifications_title_dedup
    (fetch : String → Except String (List (String × String)))
    (specialization : String)
    (hc : specialization.toList.contains ',' = true) (t : String) :
    countByTitle (get_certifications fetch specialization) t ≤ 1 ∧
    (get_certifications fetch specialization).find? (fun c => c.title == t) =
      (getCertCombined (search_coursera_for_skill fetch)
        ((((pySplit specialization ",").map pyStrip).filter
          (fun s => s ≠ "")).take 10)).find? (fun c => c.title == t) := by
  rw [get_certifications, if_pos hc]
  exact ⟨dedupByTitleAux_count_le_one _ _ t,
    dedupByTitleAux_find? _ [] t (List.not_mem_nil t)⟩

/-- C4 witness: two skills whose catalogue results share the title "T";
the theorem is applied at this concrete input. -/
theorem certifications_title_dedup_witness :
    countByTitle
      (get_certifications
        (fun s => .ok (if s = "a" then [("T", "u1")] else [("T", "u2")]))
        "a, b") "T" ≤ 1 ∧
    (get_certifications
        (fun s => .ok (if s = "a" then [("T", "u1")] else [("T", "u2")]))
        "a, b").find? (fun c => c.title == "T") =
      (getCertCombined
        (search_coursera_for_skill
          (fun s => .ok (if s = "a" then [("T", "u1")] else [("T", "u2")])))
        ((((pySplit "a, b" ",").map pyStrip).filter
          (fun s => s ≠ "")).take 10)).find? (fun c => c.title == "T") :=
  certifications_title_dedup
    (fun s => .ok (if s = "a" then [("T", "u1")] else [("T", "u2")]))
    "a, b" (by decide) "T"

/-- C5: on the multi-skill path `get_certifications` splits on commas,
strips each part, drops empties, caps at the first 10 skills, takes at
most 3 catalogue results per skill in skill-processing order, and
deduplicates the concatenation; and a catalogue failure for one skill
makes that skill contribute the empty result list (so the other skills of
the flat-map are unaffected and the partial result is still returned). -/
theorem certifications_multi_skill_pipeline
    (fetch : String → Except String (List (String × String)))
    (specialization : String)
    (hc : specialization.toList.contains ',' = true) :
    get_certifications fetch specialization =
      dedupByTitleAux []
        (((((pySplit specialization ",").map pyStrip).filter
            (fun s => s ≠ "")).take 10).flatMap
          (fun s => ((search_coursera_for_skill fetch s).take 3).map
            (fun c => ⟨c.1, c.2, some s⟩))) ∧
    (∀ s e, fetch s = .error e → search_coursera_for_skill fetch s = []) := by
  constructor
  · rw [get_certifications, if_pos hc]
    dsimp only
    rw [getCertCombined_eq]
  · intro s e he
    by_cases h : pyStrip s = "" <;> simp [search_coursera_for_skill, h, he]

/-- C5 witness: the theorem applied to a concrete three-skill
specialization whose middle skill fails; the other skills still
contribute their capped results. -/
theorem certifications_multi_skill_pipeline_witness :
    get_certifications
      (fun s => if s = "b" then .error "boom"
        else .ok [(s ++ "1", "u1"), (s ++ "2", "u2"), (s ++ "3", "u3"), (s ++ "4", "u4")])
      "a, b, c" =
      dedupByTitleAux []
        (((((pySplit "a, b, c" ",").map pyStrip).filter
            (fun s => s ≠ "")).take 10).flatMap
          (fun s => ((search_coursera_for_skill
              (fun s => if s = "b" then .error "boom"
                else .ok [(s ++ "1", "u1"), (s ++ "2", "u2"), (s ++ "3", "u3"),
                  (s ++ "4", "u4")]) s).take 3).map
            (fun c => ⟨c.1, c.2, some s⟩))) ∧
    search_coursera_for_skill
      (fun s => if s = "b" then .error "boom"
        else .ok [(s ++ "1", "u1"), (s ++ "2", "u2"), (s ++ "3", "u3"), (s ++ "4", "u4")])
      "b" = [] :=
  ⟨(certifications_multi_skill_pipeline
      (fun s => if s = "b" then .error "boom"
        else .ok [(s ++ "1", "u1"), (s ++ "2", "u2"), (s ++ "3", "u3"), (s ++ "4", "u4")])
      "a, b, c" (by decide)).1,
   (certifications_multi_skill_pipeline
      (fun s => if s = "b" then .error "boom"
        else .ok [(s ++ "1", "u1"), (s ++ "2", "u2"), (s ++ "3", "u3"), (s ++ "4", "u4")])
      "a, b, c" (by decide)).2 "b" "boom" rfl⟩

/-! ## Claim C7: skill extraction never empty, tokens normalised -/

theorem toList_mk (l : List Char) : (String.mk l).toList = l := rfl

theorem ofNatAux_toNat (n : Nat) (h : n.isValidChar) :
    (Char.ofNatAux n h).toNat = n := rfl

theorem charLower_not_upper (c : Char) :
    ¬ (65 ≤ (charLower c).toNat ∧ (charLower c).toNat ≤ 90) := by
  by_cases h : 65 ≤ c.toNat ∧ c.toNat ≤ 90
  · rw [charLower, dif_pos h, ofNatAux_toNat]
    omega
  · rw [charLower, dif_neg h]
    exact h

theorem isWsA_charLower (c : Char) : isWsA (charLower c) = isWsA c := by
  by_cases h : 65 ≤ c.toNat ∧ c.toNat ≤ 90
  · rw [charLower, dif_pos h]
    simp only [isWsA, ofNatAux_toNat]
    rw [decide_eq_decide]
    omega
  · rw [charLower, dif_neg h]

theorem noUpper_pyLower (s : String) : noUpper (pyLower s) := by
  simp only [noUpper, pyLower, toList_mk, List.all_map, List.all_eq_true]
  intro c _
  simp only [Function.comp_apply, Bool.not_eq_true', decide_eq_false_iff_not]
  exact charLower_not_upper c

theorem edgeOk_map_charLower (o : Option Char) :
    edgeOk (o.map charLower) = edgeOk o := by
  cases o with
  | none => rfl
  | some c => simp [edgeOk, isWsA_charLower]

theorem cleanEdges_pyLower (s : String) (h : cleanEdges s) :
    cleanEdges (pyLower s) := by
  obtain ⟨h1, h2⟩ := h
  constructor
  · rw [pyLower, toList_mk, List.head?_map, edgeOk_map_charLower]
    exact h1
  · rw [pyLower, toList_mk, List.getLast?_map, edgeOk_map_charLower]
    exact h2

instance (s : String) : Decidable (noUpper s) :=
  inferInstanceAs (Decidable
    (s.toList.all (fun c => !(decide (65 ≤ c.toNat ∧ c.toNat ≤ 90))) = true))

instance (s : String) : Decidable (cleanEdges s) :=
  inferInstanceAs (Decidable
    (edgeOk s.toList.head? = true ∧ edgeOk s.toList.getLast? = true))

theorem vocab_entries_normalized :
    ∀ s ∈ COMMON_TECH_SKILLS, noUpper s ∧ cleanEdges s := by decide

theorem default_entries_normalized :
    ∀ s ∈ defaultSkills, noUpper s ∧ cleanEdges s := by decide

theorem fallbackSkills_ne_nil (text : String) : fallbackSkills text ≠ [] := by
  by_cases h : vocabScanHits text = [] <;> simp [fallbackSkills, h, defaultSkills]

theorem fallbackSkills_normalized (text : String) :
    ∀ tok ∈ fallbackSkills text, noUpper tok ∧ cleanEdges tok := by
  intro tok htok
  by_cases h : vocabScanHits text = []
  · rw [fallbackSkills] at htok
    simp only [h, if_pos] at htok
    exact default_entries_normalized tok htok
  · rw [fallbackSkills] at htok
    simp only [if_neg h] at htok
    exact vocab_entries_normalized tok (List.mem_of_mem_filter htok)

/-- C7: for every input text — whatever the optional NER model returns,
provided its entity spans carry no surrounding whitespace, which is how
spaCy spans are built — the extracted skill list is nonempty, every token
is lowercase with no leading or trailing whitespace, and when neither the
model path nor the vocabulary scan finds anything the fixed default list
is returned. -/
theorem extract_skills_nonempty_normalized
    (nlpModel : Option (String → Except String (List String))) (text : String)
    (hents : ∀ f, nlpModel = some f → ∀ ents, f text = .ok ents →
      ∀ e ∈ ents, cleanEdges e) :
    extract_skills_list nlpModel text ≠ [] ∧
    (∀ tok ∈ extract_skills_list nlpModel text, noUpper tok ∧ cleanEdges tok) ∧
    ((∀ f, nlpModel = some f → ∀ ents, f text = .ok ents → ents = []) →
      vocabScanHits text = [] →
      extract_skills_list nlpModel text = defaultSkills) := by
  cases nlpModel with
  | none =>
      refine ⟨fallbackSkills_ne_nil text, fallbackSkills_normalized text, ?_⟩
      intro _ hscan
      rw [extract_skills_list, fallbackSkills]
      simp [hscan]
  | some f =>
      cases hf : f text with
      | error e =>
          rw [extract_skills_list, hf]
          refine ⟨fallbackSkills_ne_nil text, fallbackSkills_normalized text, ?_⟩
          intro _ hscan
          rw [fallbackSkills]
          simp [hscan]
      | ok ents =>
          by_cases hsk : (ents.map pyLower).dedup = []
          · rw [extract_skills_list, hf]
            simp only [hsk, if_pos]
            refine ⟨fallbackSkills_ne_nil text, fallbackSkills_normalized text, ?_⟩
            intro _ hscan
            rw [fallbackSkills]
            simp [hscan]
          · rw [extract_skills_list, hf]
            simp only [if_neg hsk]
            refine ⟨hsk, ?_, ?_⟩
            · intro tok htok
              have hmem : tok ∈ ents.map pyLower := List.mem_dedup.mp htok
              obtain ⟨e, he, rfl⟩ := List.mem_map.mp hmem
              exact ⟨noUpper_pyLower e,
                cleanEdges_pyLower e (hents f rfl ents hf e he)⟩
            · intro hmodel _
              have : ents = [] := hmodel f rfl ents hf
              subst this
              simp at hsk

/-- C7 witness: the theorem applied with no model and a text that matches
no vocabulary entry, so the default list is delivered. -/
theorem extract_skills_nonempty_normalized_witness :
    extract_skills_list none "zzqqzz" ≠ [] ∧
    extract_skills_list none "zzqqzz" = defaultSkills :=
  ⟨(extract_skills_nonempty_normalized none "zzqqzz"
      (fun _ h => Option.noConfusion h)).1,
   (extract_skills_nonempty_normalized none "zzqqzz"
      (fun _ h => Option.noConfusion h)).2.2
      (fun _ h => Option.noConfusion h) (by decide)⟩

/-! ## Claim C1: tie order of the descending score sort -/

theorem pairwise_indexOf_lt {α : Type} [DecidableEq α] {R : α → α → Prop}
    {l : List α} (hp : l.Pairwise R) {a b : α} (ha : a ∈ l) (hb : b ∈ l)
    (hne : a ≠ b) (hnab : ¬ R a b) : l.indexOf b < l.indexOf a := by
  have hia : l.indexOf a < l.length := List.indexOf_lt_length.mpr ha
  have hib : l.indexOf b < l.length := List.indexOf_lt_length.mpr hb
  rcases lt_trichotomy (l.indexOf a) (l.indexOf b) with h | h | h
  · exfalso
    have hrel := List.pairwise_iff_getElem.mp hp (l.indexOf a) (l.indexOf b)
      hia hib h
    rw [List.getElem_indexOf hia, List.getElem_indexOf hib] at hrel
    exact hnab hrel
  · exact absurd ((List.indexOf_inj ha hb).mp h) hne
  · exact h

theorem argsortAsc_perm (keys : List ℝ) :
    List.Perm (argsortAsc keys) (List.range keys.length) :=
  List.perm_insertionSort _ _

theorem mem_argsortDescPandas (keys : List ℝ) {i : Nat} (h : i < keys.length) :
    i ∈ argsortDescPandas keys := by
  rw [argsortDescPandas, List.mem_reverse]
  exact (argsortAsc_perm keys).mem_iff.mpr (List.mem_range.mpr h)

theorem argsortDescPandas_ties_reversed (keys : List ℝ) (i j : Nat)
    (hij : i < j) (hj : j < keys.length) (hkey : keys.getD i 0 = keys.getD j 0) :
    (argsortDescPandas keys).indexOf j < (argsortDescPandas keys).indexOf i := by
  have hi : i < keys.length := lt_trans hij hj
  have hsorted : List.Sorted (pandasKeyLE keys) (argsortAsc keys) :=
    List.sorted_insertionSort _ _
  have hpw : (argsortDescPandas keys).Pairwise
      (fun a b => pandasKeyLE keys b a) := by
    rw [argsortDescPandas]
    exact List.pairwise_reverse.mpr hsorted
  refine pairwise_indexOf_lt hpw (mem_argsortDescPandas keys hi)
    (mem_argsortDescPandas keys hj) (Nat.ne_of_lt hij) ?_
  rintro (hlt | ⟨-, hle⟩)
  · rw [hkey] at hlt
    exact lt_irrefl _ hlt
  · omega

theorem similarityScores_length (u : String) (ls : List JobListing) :
    (similarityScores u ls).length = ls.length := by
  simp [similarityScores]

theorem similarityScores_getD (u : String) (ls : List JobListing) (i : Nat)
    (h : i < ls.length) :
    (similarityScores u ls).getD i 0 =
      cosSim ((u :: ls.map (fun l => l.skills)).map tokenize) (tokenize u)
        (tokenize ((ls.getD i default).skills)) := by
  rw [similarityScores]
  simp [List.getD_eq_getElem?_getD, List.getElem?_map,
    List.getElem?_eq_getElem h]

theorem recommended_jobs_rows_indices (u : String) (ls : List JobListing) :
    (recommended_jobs_rows u ls).map (fun e => e.1) =
      argsortDescPandas (similarityScores u ls) := by
  simp only [recommended_jobs_rows, List.map_map]
  have : ((fun e : Nat × JobListing × ℝ => e.1) ∘
      fun i => (i, ls.getD i default, (similarityScores u ls).getD i 0)) =
        fun i => i := rfl
  rw [this]
  simp

/-- C1 amended: the descending score sort of `recommended_jobs` is not
stable — `sort_values(ascending=False)` reverses an ascending argsort —
so two listings with equal skill strings (hence equal similarity scores)
appear in the output in reversed relative order, not in their original
corpus order. -/
theorem equal_skills_rank_reversed (u : String) (ls : List JobListing)
    (i j : Nat) (hij : i < j) (hj : j < ls.length)
    (hsk : (ls.getD i default).skills = (ls.getD j default).skills) :
    ((recommended_jobs_rows u ls).map (fun e => e.1)).indexOf j <
      ((recommended_jobs_rows u ls).map (fun e => e.1)).indexOf i := by
  rw [recommended_jobs_rows_indices]
  refine argsortDescPandas_ties_reversed _ i j hij ?_ ?_
  · rw [similarityScores_length]
    exact hj
  · rw [similarityScores_getD u ls i (lt_trans hij hj),
      similarityScores_getD u ls j hj, hsk]

/-- C1 witness: the amended theorem applied to a two-listing corpus with
identical skill strings. -/
theorem equal_skills_rank_reversed_witness :
    ((recommended_jobs_rows "python"
        [⟨0, "J0", "python"⟩, ⟨1, "J1", "python"⟩]).map (fun e => e.1)).indexOf 1 <
      ((recommended_jobs_rows "python"
        [⟨0, "J0", "python"⟩, ⟨1, "J1", "python"⟩]).map (fun e => e.1)).indexOf 0 :=
  equal_skills_rank_reversed "python" [⟨0, "J0", "python"⟩, ⟨1, "J1", "python"⟩]
    0 1 (by decide) (by decide) (by decide)

theorem argsortDescPandas_pair (x : ℝ) :
    argsortDescPandas [x, x] = [1, 0] := by
  rw [argsortDescPandas, argsortAsc]
  rw [show ([x, x] : List ℝ).length = 2 from rfl,
    show List.range 2 = [0, 1] from rfl]
  simp only [List.insertionSort, List.orderedInsert]
  rw [if_pos (show pandasKeyLE [x, x] 0 1 from Or.inr ⟨rfl, by omega⟩)]
  rfl

/-- C1 counterexample: on a two-listing corpus whose rows have identical
skill strings, `recommended_jobs` emits the rows as original indices
`[1, 0]` — the reverse of the corpus order `[0, 1]` that the stability
claim requires for equal scores. -/
theorem stability_counterexample :
    (recommended_jobs "python" [⟨0, "J0", "python"⟩, ⟨1, "J1", "python"⟩]).map
      (fun rows => rows.map (fun e => e.1)) = .ok [1, 0] ∧
    ([1, 0] : List Nat) ≠ [0, 1] := by
  refine ⟨?_, by decide⟩
  have h1 : recommended_jobs "python" [⟨0, "J0", "python"⟩, ⟨1, "J1", "python"⟩] =
      .ok (recommended_jobs_rows "python"
        [⟨0, "J0", "python"⟩, ⟨1, "J1", "python"⟩]) := by
    rw [recommended_jobs, if_neg (by decide), if_neg (by decide)]
  rw [h1]
  have h2 : (recommended_jobs_rows "python"
      [⟨0, "J0", "python"⟩, ⟨1, "J1", "python"⟩]).map (fun e => e.1) = [1, 0] := by
    rw [recommended_jobs_rows_indices]
    have hsc : similarityScores "python" [⟨0, "J0", "python"⟩, ⟨1, "J1", "python"⟩] =
        [cosSim (["python", "python", "python"].map tokenize) (tokenize "python")
          (tokenize "python"),
         cosSim (["python", "python", "python"].map tokenize) (tokenize "python")
          (tokenize "python")] := rfl
    rw [hsc, argsortDescPandas_pair]
  rw [show (Except.ok (recommended_jobs_rows "python"
      [⟨0, "J0", "python"⟩, ⟨1, "J1", "python"⟩]) :
        Except String (List (Nat × JobListing × ℝ))).map
      (fun rows => rows.map (fun e => e.1)) =
      Except.ok ((recommended_jobs_rows "python"
        [⟨0, "J0", "python"⟩, ⟨1, "J1", "python"⟩]).map (fun e => e.1)) from rfl]
  rw [h2]

/-! ## Claim C2: ranking of the concrete three-listing corpus -/

theorem idf_pos (docs : List (List String)) (t : String) : 0 < idf docs t := by
  rw [idf]
  have hdf : df docs t ≤ docs.length := by
    rw [df]
    exact List.length_filter_le _ docs
  have hden : (0 : ℝ) < 1 + (df docs t : ℝ) := by positivity
  have h1 : (1 : ℝ) ≤ (1 + (docs.length : ℝ)) / (1 + (df docs t : ℝ)) := by
    rw [le_div_iff₀ hden, one_mul]
    have := (Nat.cast_le (α := ℝ)).mpr hdf
    linarith
  have h2 := Real.log_nonneg h1
  linarith

theorem argsortDescPandas_triple (x : ℝ) (hx0 : 0 < x) (hx1 : x < 1) :
    argsortDescPandas [1, 0, x] = [0, 2, 1] := by
  have h12 : pandasKeyLE [(1 : ℝ), 0, x] 1 2 := Or.inl hx0
  have h01 : ¬ pandasKeyLE [(1 : ℝ), 0, x] 0 1 := by
    intro h
    simp only [pandasKeyLE, List.getD_cons_zero, List.getD_cons_succ] at h
    rcases h with h | ⟨h, -⟩ <;> norm_num at h
  have h02 : ¬ pandasKeyLE [(1 : ℝ), 0, x] 0 2 := by
    intro h
    simp only [pandasKeyLE, List.getD_cons_zero, List.getD_cons_succ] at h
    rcases h with h | ⟨h, -⟩ <;> linarith
  rw [argsortDescPandas, argsortAsc]
  rw [show ([(1 : ℝ), 0, x]).length = 3 from rfl,
    show List.range 3 = [0, 1, 2] from rfl]
  simp only [List.insertionSort, List.orderedInsert]
  rw [if_pos h12]
  simp only [List.orderedInsert]
  rw [if_neg h01, if_neg h02]
  rfl

/-- TF-IDF cosine scores of the three-listing corpus: the duplicate of the
user document scores exactly 1, the disjoint document scores exactly 0,
and the partial overlap scores strictly between 0 and 1. -/
theorem three_listing_scores :
    cosSim [["python", "sql"], ["python", "sql"], ["java"], ["python"]]
      ["python", "sql"] ["python", "sql"] = 1 ∧
    cosSim [["python", "sql"], ["python", "sql"], ["java"], ["python"]]
      ["python", "sql"] ["java"] = 0 ∧
    0 < cosSim [["python", "sql"], ["python", "sql"], ["java"], ["python"]]
      ["python", "sql"] ["python"] ∧
    cosSim [["python", "sql"], ["python", "sql"], ["java"], ["python"]]
      ["python", "sql"] ["python"] < 1 := by
  have hv : vocabOf [["python", "sql"], ["python", "sql"], ["java"], ["python"]] =
      ["sql", "java", "python"] := by decide
  have hp : 0 < idf [["python", "sql"], ["python", "sql"], ["java"], ["python"]]
      "python" := idf_pos _ _
  have hq : 0 < idf [["python", "sql"], ["python", "sql"], ["java"], ["python"]]
      "sql" := idf_pos _ _
  have htUs : tf ["python", "sql"] "sql" = 1 := by decide
  have htUj : tf ["python", "sql"] "java" = 0 := by decide
  have htUp : tf ["python", "sql"] "python" = 1 := by decide
  have htJs : tf ["java"] "sql" = 0 := by decide
  have htJj : tf ["java"] "java" = 1 := by decide
  have htJp : tf ["java"] "python" = 0 := by decide
  have htPs : tf ["python"] "sql" = 0 := by decide
  have htPj : tf ["python"] "java" = 0 := by decide
  have htPp : tf ["python"] "python" = 1 := by decide
  have huu : dotTfidf [["python", "sql"], ["python", "sql"], ["java"], ["python"]]
      ["python", "sql"] ["python", "sql"] =
      idf [["python", "sql"], ["python", "sql"], ["java"], ["python"]] "sql" *
        idf [["python", "sql"], ["python", "sql"], ["java"], ["python"]] "sql" +
      idf [["python", "sql"], ["python", "sql"], ["java"], ["python"]] "python" *
        idf [["python", "sql"], ["python", "sql"], ["java"], ["python"]] "python" := by
    rw [dotTfidf, hv]
    simp only [List.map_cons, List.map_nil, List.sum_cons, List.sum_nil,
      tfidfWeight, htUs, htUj, htUp, Nat.cast_one, Nat.cast_zero]
    ring
  have huj : dotTfidf [["python", "sql"], ["python", "sql"], ["java"], ["python"]]
      ["python", "sql"] ["java"] = 0 := by
    rw [dotTfidf, hv]
    simp only [List.map_cons, List.map_nil, List.sum_cons, List.sum_nil,
      tfidfWeight, htUs, htUj, htUp, htJs, htJj, htJp, Nat.cast_one, Nat.cast_zero]
    ring
  have hup : dotTfidf [["python", "sql"], ["python", "sql"], ["java"], ["python"]]
      ["python", "sql"] ["python"] =
      idf [["python", "sql"], ["python", "sql"], ["java"], ["python"]] "python" *
        idf [["python", "sql"], ["python", "sql"], ["java"], ["python"]] "python" := by
    rw [dotTfidf, hv]
    simp only [List.map_cons, List.map_nil, List.sum_cons, List.sum_nil,
      tfidfWeight, htUs, htUj, htUp, htPs, htPj, htPp, Nat.cast_one, Nat.cast_zero]
    ring
  have hpp : dotTfidf [["python", "sql"], ["python", "sql"], ["java"], ["python"]]
      ["python"] ["python"] =
      idf [["python", "sql"], ["python", "sql"], ["java"], ["python"]] "python" *
        idf [["python", "sql"], ["python", "sql"], ["java"], ["python"]] "python" := by
    rw [dotTfidf, hv]
    simp only [List.map_cons, List.map_nil, List.sum_cons, List.sum_nil,
      tfidfWeight, htPs, htPj, htPp, Nat.cast_one, Nat.cast_zero]
    ring
  have hSpos : 0 <
      idf [["python", "sql"], ["python", "sql"], ["java"], ["python"]] "sql" *
        idf [["python", "sql"], ["python", "sql"], ["java"], ["python"]] "sql" +
      idf [["python", "sql"], ["python", "sql"], ["java"], ["python"]] "python" *
        idf [["python", "sql"], ["python", "sql"], ["java"], ["python"]] "python" :=
    add_pos (mul_pos hq hq) (mul_pos hp hp)
  refine ⟨?_, ?_, ?_, ?_⟩
  · rw [cosSim, huu, Real.mul_self_sqrt hSpos.le, div_self hSpos.ne']
  · rw [cosSim, huj, zero_div]
  · rw [cosSim, hup, huu, hpp]
    apply div_pos (mul_pos hp hp)
    exact mul_pos (Real.sqrt_pos.mpr hSpos) (Real.sqrt_pos.mpr (mul_pos hp hp))
  · rw [cosSim, hup, huu, hpp, Real.sqrt_mul_self hp.le]
    rw [div_lt_one (mul_pos (Real.sqrt_pos.mpr hSpos) hp)]
    have hlt : idf [["python", "sql"], ["python", "sql"], ["java"], ["python"]]
        "python" <
        Real.sqrt
          (idf [["python", "sql"], ["python", "sql"], ["java"], ["python"]] "sql" *
            idf [["python", "sql"], ["python", "sql"], ["java"], ["python"]] "sql" +
          idf [["python", "sql"], ["python", "sql"], ["java"], ["python"]] "python" *
            idf [["python", "sql"], ["python", "sql"], ["java"], ["python"]] "python") := by
      rw [Real.lt_sqrt hp.le]
      nlinarith [mul_pos hq hq]
    exact (mul_lt_mul_right hp).mpr hlt

/-- C2: on the corpus with skill strings "python, sql", "java", "python"
and user skills "python, sql", `recommended_jobs` returns the rows in the
order first, third, second (original indices `[0, 2, 1]`); the second
listing scores exactly 0 and the third listing scores strictly between
the second and the first. -/
theorem three_listing_ranking :
    (recommended_jobs "python, sql"
        [⟨1, "L1", "python, sql"⟩, ⟨2, "L2", "java"⟩, ⟨3, "L3", "python"⟩]).map
      (fun rows => rows.map (fun e => e.1)) = .ok [0, 2, 1] ∧
    (similarityScores "python, sql"
        [⟨1, "L1", "python, sql"⟩, ⟨2, "L2", "java"⟩, ⟨3, "L3", "python"⟩]).getD 1 0
      = 0 ∧
    0 < (similarityScores "python, sql"
        [⟨1, "L1", "python, sql"⟩, ⟨2, "L2", "java"⟩, ⟨3, "L3", "python"⟩]).getD 2 0 ∧
    (similarityScores "python, sql"
        [⟨1, "L1", "python, sql"⟩, ⟨2, "L2", "java"⟩, ⟨3, "L3", "python"⟩]).getD 2 0 <
      (similarityScores "python, sql"
        [⟨1, "L1", "python, sql"⟩, ⟨2, "L2", "java"⟩, ⟨3, "L3", "python"⟩]).getD 0 0 := by
  have htu : tokenize "python, sql" = ["python", "sql"] := by decide
  have htj : tokenize "java" = ["java"] := by decide
  have htp : tokenize "python" = ["python"] := by decide
  have hDT : List.map tokenize ["python, sql", "python, sql", "java", "python"] =
      [["python", "sql"], ["python", "sql"], ["java"], ["python"]] := by
    simp only [List.map_cons, List.map_nil, htu, htj, htp]
  have hsc : similarityScores "python, sql"
      [⟨1, "L1", "python, sql"⟩, ⟨2, "L2", "java"⟩, ⟨3, "L3", "python"⟩] =
      [cosSim (List.map tokenize ["python, sql", "python, sql", "java", "python"])
        (tokenize "python, sql") (tokenize "python, sql"),
       cosSim (List.map tokenize ["python, sql", "python, sql", "java", "python"])
        (tokenize "python, sql") (tokenize "java"),
       cosSim (List.map tokenize ["python, sql", "python, sql", "java", "python"])
        (tokenize "python, sql") (tokenize "python")] := rfl
  have hsc2 : similarityScores "python, sql"
      [⟨1, "L1", "python, sql"⟩, ⟨2, "L2", "java"⟩, ⟨3, "L3", "python"⟩] =
      [cosSim [["python", "sql"], ["python", "sql"], ["java"], ["python"]]
        ["python", "sql"] ["python", "sql"],
       cosSim [["python", "sql"], ["python", "sql"], ["java"], ["python"]]
        ["python", "sql"] ["java"],
       cosSim [["python", "sql"], ["python", "sql"], ["java"], ["python"]]
        ["python", "sql"] ["python"]] := by
    rw [hsc, hDT, htu, htj, htp]
  obtain ⟨hs0, hs1, hs2a, hs2b⟩ := three_listing_scores
  refine ⟨?_, ?_, ?_, ?_⟩
  · have h1 : recommended_jobs "python, sql"
        [⟨1, "L1", "python, sql"⟩, ⟨2, "L2", "java"⟩, ⟨3, "L3", "python"⟩] =
        .ok (recommended_jobs_rows "python, sql"
          [⟨1, "L1", "python, sql"⟩, ⟨2, "L2", "java"⟩, ⟨3, "L3", "python"⟩]) := by
      rw [recommended_jobs, if_neg (by decide), if_neg (by decide)]
    have h2 : (recommended_jobs_rows "python, sql"
        [⟨1, "L1", "python, sql"⟩, ⟨2, "L2", "java"⟩, ⟨3, "L3", "python"⟩]).map
          (fun e => e.1) = [0, 2, 1] := by
      rw [recommended_jobs_rows_indices, hsc2]
      rw [show [cosSim [["python", "sql"], ["python", "sql"], ["java"], ["python"]]
            ["python", "sql"] ["python", "sql"],
          cosSim [["python", "sql"], ["python", "sql"], ["java"], ["python"]]
            ["python", "sql"] ["java"],
          cosSim [["python", "sql"], ["python", "sql"], ["java"], ["python"]]
            ["python", "sql"] ["python"]] =
          [1, 0, cosSim [["python", "sql"], ["python", "sql"], ["java"], ["python"]]
            ["python", "sql"] ["python"]] from by rw [hs0, hs1]]
      exact argsortDescPandas_triple _ hs2a hs2b
    rw [h1]
    rw [show (Except.ok (recommended_jobs_rows "python, sql"
        [⟨1, "L1", "python, sql"⟩, ⟨2, "L2", "java"⟩, ⟨3, "L3", "python"⟩]) :
          Except String (List (Nat × JobListing × ℝ))).map
        (fun rows => rows.map (fun e => e.1)) =
        Except.ok ((recommended_jobs_rows "python, sql"
          [⟨1, "L1", "python, sql"⟩, ⟨2, "L2", "java"⟩, ⟨3, "L3", "python"⟩]).map
            (fun e => e.1)) from rfl]
    rw [h2]
  · rw [hsc2]
    exact hs1
  · rw [hsc2]
    exact hs2a
  · rw [hsc2]
    show cosSim [["python", "sql"], ["python", "sql"], ["java"], ["python"]]
        ["python", "sql"] ["python"] <
      cosSim [["python", "sql"], ["python", "sql"], ["java"], ["python"]]
        ["python", "sql"] ["python", "sql"]
    rw [hs0]
    exact hs2b

end SkillSync
